import Mathlib

/-!
Verification development for the voicemode repository.

The source is embedded shallowly: audio samples are lists of integers
(int16 values), wall-clock instants are natural numbers of milliseconds,
and the event-driven loops of the source become executable step functions
over explicit event lists.  Each definition mirrors one function of the
source tree (voice_duplex.py, voice_loop.py, voice_mode/audio_transport.py).
-/

/-- Source constant SPEECH_THRESHOLD = 200 in voice_duplex.py: average
absolute sample magnitude above which a frame counts as speech. -/
def SPEECH_THRESHOLD : Nat := 200

/-- Source constant INTERRUPT_SAMPLES = 4800 in voice_duplex.py: number of
consecutive speech samples that triggers an interrupt. -/
def INTERRUPT_SAMPLES : Nat := 4800

/-- Source constant chunk_size = 480 (10 ms at 48 kHz), used by
DuplexVoice._send_audio in voice_duplex.py and by speak in voice_loop.py. -/
def chunk_size : Nat := 480

/-- Sum of absolute sample values of a frame.  This is the numerator of
np.abs(samples).mean() computed in _receive_audio. -/
def sumAbs (f : List Int) : Nat := (f.map Int.natAbs).sum

/-- Embeds the test: np.abs(samples).mean() > SPEECH_THRESHOLD from
DuplexVoice._receive_audio.  The mean of the absolute values exceeds the
threshold exactly when the sum exceeds threshold times length; an empty
frame compares false (numpy yields nan, and nan > t is false). -/
def frameAbove (f : List Int) : Bool :=
  decide (SPEECH_THRESHOLD * f.length < sumAbs f)

/-- Embeds the chunking loop of DuplexVoice._send_audio (voice_duplex.py)
and of speak (voice_loop.py): the buffer is cut into slices of chunk_size
samples and the final short slice is zero padded to full length with
np.pad. -/
def chunkPad : List Int → List (List Int)
  | [] => []
  | x :: xs =>
      ((x :: xs).take chunk_size ++
        List.replicate (chunk_size - (x :: xs).length) (0 : Int)) ::
      chunkPad ((x :: xs).drop chunk_size)
  termination_by l => l.length
  decreasing_by
    simp only [List.length_drop, List.length_cons, chunk_size]
    omega

/-- One iteration of the record_with_vad polling loop: either a chunk was
obtained from the queue, or the bounded wait timed out (queue.Empty in the
local variant, asyncio.TimeoutError in the LiveKit variant).  The field t
is the elapsed wall-clock time of that iteration in milliseconds. -/
inductive VadEvent where
  | chunk (t : Nat) (c : List Int)
  | timeout (t : Nat)

/-- Elapsed time of a loop iteration. -/
def VadEvent.time : VadEvent → Nat
  | .chunk t _ => t
  | .timeout t => t

/-- The (max_duration, min_duration, silence_threshold_ms) arguments of
record_with_vad, all expressed in milliseconds. -/
structure VadParams where
  maxDurationMs : Nat
  minDurationMs : Nat
  silenceThresholdMs : Nat

/-- The mutable locals of record_with_vad: audio_chunks, speech_detected and
silence_start (a millisecond instant when set). -/
structure VadState where
  chunks : List (List Int)
  speech_detected : Bool
  silence_start : Option Nat

/-- Initial loop state: audio_chunks = [], speech_detected = False,
silence_start = None. -/
def initVadState : VadState := ⟨[], false, none⟩

/-- Which break statement ended the loop: the hard elapsed-time ceiling or
the silence-threshold check. -/
inductive StopReason where
  | maxDuration
  | silence

/-- Outcome of processing one received chunk: carry on looping with the new
state, or break out of the loop (the silence-threshold break). -/
inductive ChunkOut where
  | next (s : VadState)
  | stop (s : VadState)

/-- Embeds the chunk-processing body shared verbatim by
LocalAudioTransport.record_with_vad and LiveKitAudioTransport.record_with_vad
(audio_transport.py): append the chunk; when elapsed is at least
min_duration and a VAD callback is supplied, classify the chunk, otherwise
set speech_detected unconditionally; classified silence arms or checks the
silence timer, classified speech clears it. -/
def processChunk (p : VadParams) (cb : Option (List Int → Bool))
    (t : Nat) (c : List Int) (s : VadState) : ChunkOut :=
  let s1 : VadState := { s with chunks := s.chunks ++ [c] }
  match cb with
  | some vad =>
      if p.minDurationMs ≤ t then
        if vad c then
          ChunkOut.next { s1 with speech_detected := true, silence_start := none }
        else
          match s1.silence_start with
          | none => ChunkOut.next { s1 with silence_start := some t }
          | some t0 =>
              if p.silenceThresholdMs ≤ t - t0 then ChunkOut.stop s1
              else ChunkOut.next s1
      else ChunkOut.next { s1 with speech_detected := true }
  | none => ChunkOut.next { s1 with speech_detected := true }

/-- Embeds the while-True loop of LocalAudioTransport.record_with_vad over a
list of loop iterations: the loop first breaks when elapsed reaches
max_duration, then waits on the queue; a queue.Empty timeout just
continues.  Returns the final state and the break point (elapsed time and
reason), or none when the modelled iteration list is exhausted before any
break. -/
def runVadLocal (p : VadParams) (cb : Option (List Int → Bool)) :
    List VadEvent → VadState → VadState × Option (Nat × StopReason)
  | [], s => (s, none)
  | e :: rest, s =>
      if p.maxDurationMs ≤ e.time then (s, some (e.time, StopReason.maxDuration))
      else
        match e with
        | .timeout _ => runVadLocal p cb rest s
        | .chunk t c =>
            match processChunk p cb t c s with
            | .next s1 => runVadLocal p cb rest s1
            | .stop s1 => (s1, some (t, StopReason.silence))

/-- Embeds the while-True loop of LiveKitAudioTransport.record_with_vad.
It differs from the local variant only in the timeout branch: on
asyncio.TimeoutError the loop breaks when an armed silence timer has
already exceeded silence_threshold_ms. -/
def runVadLiveKit (p : VadParams) (cb : Option (List Int → Bool)) :
    List VadEvent → VadState → VadState × Option (Nat × StopReason)
  | [], s => (s, none)
  | e :: rest, s =>
      if p.maxDurationMs ≤ e.time then (s, some (e.time, StopReason.maxDuration))
      else
        match e with
        | .timeout t =>
            match s.silence_start with
            | some t0 =>
                if p.silenceThresholdMs ≤ t - t0 then (s, some (t, StopReason.silence))
                else runVadLiveKit p cb rest s
            | none => runVadLiveKit p cb rest s
        | .chunk t c =>
            match processChunk p cb t c s with
            | .next s1 => runVadLiveKit p cb rest s1
            | .stop s1 => (s1, some (t, StopReason.silence))

/-- Embeds the return statement shared by both record_with_vad variants:
with a nonempty buffer return the concatenation and the speech flag, with
an empty buffer return an empty array and False. -/
def vadReturn (s : VadState) : List Int × Bool :=
  if s.chunks.isEmpty then ([], false) else (s.chunks.flatten, s.speech_detected)

/-- The interrupt-controller fields of DuplexVoice (voice_duplex.py):
is_speaking, was_interrupted and speech_detected_samples. -/
structure DuplexState where
  is_speaking : Bool
  was_interrupted : Bool
  speech_detected_samples : Nat

/-- Embeds the per-frame body of DuplexVoice._receive_audio: while speaking,
a frame whose average magnitude exceeds SPEECH_THRESHOLD adds its sample
count to speech_detected_samples and raises was_interrupted once the count
reaches INTERRUPT_SAMPLES; otherwise the count is reset to zero.  The
append to the rolling audio_buffer is not modelled because the claims do
not mention it. -/
def receiveFrame (s : DuplexState) (f : List Int) : DuplexState :=
  if s.is_speaking && frameAbove f then
    let cnt := s.speech_detected_samples + f.length
    { s with
      speech_detected_samples := cnt,
      was_interrupted := if INTERRUPT_SAMPLES ≤ cnt then true else s.was_interrupted }
  else
    { s with speech_detected_samples := 0 }

/-- One scheduler step of the interleaved execution of a speak call: either
the background _receive_audio task consumes an inbound frame, or the
_send_audio loop performs one iteration (interrupt check plus possibly one
chunk send). -/
inductive DuplexEvent where
  | recv (f : List Int)
  | send

/-- Combined state of the speak call: the controller state, the chunks
_send_audio has not yet sent, the chunks already delivered to the audio
source in order, and whether the send loop has exited. -/
structure SendState where
  dp : DuplexState
  pending : List (List Int)
  sent : List (List Int)
  stopped : Bool

/-- One interleaving step.  A recv event runs the _receive_audio body; a
send event runs one iteration of the _send_audio loop, which checks
was_interrupted before slicing the next chunk and breaks when it is set or
when the buffer is exhausted. -/
def duplexStep (e : DuplexEvent) (s : SendState) : SendState :=
  match e with
  | .recv f => { s with dp := receiveFrame s.dp f }
  | .send =>
      if s.stopped then s
      else if s.dp.was_interrupted then { s with stopped := true }
      else
        match s.pending with
        | [] => { s with stopped := true }
        | c :: rest => { s with pending := rest, sent := s.sent ++ [c] }

/-- Runs an interleaving trace of a speak call. -/
def runDuplex (evs : List DuplexEvent) (s : SendState) : SendState :=
  evs.foldl (fun st e => duplexStep e st) s

/-- State at the start of DuplexVoice.speak: is_speaking = True,
was_interrupted = False, speech_detected_samples = 0, nothing sent yet, and
the pending chunks are the padded chunk_size slices of the resampled
buffer. -/
def speakInit (samples : List Int) : SendState :=
  { dp := { is_speaking := true, was_interrupted := false, speech_detected_samples := 0 },
    pending := chunkPad samples, sent := [], stopped := false }

/-- Total number of samples carried by the recv events of a trace. -/
def recvSamples : List DuplexEvent → Nat
  | [] => 0
  | .recv f :: rest => f.length + recvSamples rest
  | .send :: rest => recvSamples rest

/-- The inbound frames of a trace, in arrival order. -/
def recvFrames : List DuplexEvent → List (List Int)
  | [] => []
  | .recv f :: rest => f :: recvFrames rest
  | .send :: rest => recvFrames rest

/-- Sample count of the leading run of consecutive above-threshold frames. -/
def leadAbove (fs : List (List Int)) : Nat :=
  ((fs.takeWhile frameAbove).map List.length).sum

/-- Embeds DuplexVoice.speak (voice_duplex.py).  The TTS response is
abstracted to its HTTP status and the already resampled 48 kHz sample
buffer (the resampling itself is performed by scipy.signal.resample, an
external numeric routine outside this embedding).  On a non-200 status the
source logs the error and returns True without sending anything; on
success it runs _send_audio interleaved with _receive_audio and returns
the negation of was_interrupted together with the chunks delivered. -/
def DuplexVoice.speak (status : Nat) (samples48k : List Int)
    (events : List DuplexEvent) : Bool × List (List Int) :=
  if status = 200 then
    let fin := runDuplex events (speakInit samples48k)
    (!fin.dp.was_interrupted, fin.sent)
  else (true, [])

/-- Embeds the chunks delivered by speak in voice_loop.py: nothing when the
audio source is absent (not connected) or the TTS status is not 200,
otherwise every padded chunk of the resampled buffer; the function itself
returns None on every path. -/
def voiceLoopSpeakSent (connected : Bool) (status : Nat)
    (samples48k : List Int) : List (List Int) :=
  if !connected then [] else if status ≠ 200 then [] else chunkPad samples48k

/-- The not-connected failure raised by the LiveKit transport operations
(RuntimeError "Not connected to LiveKit room"). -/
inductive TransportError where
  | notConnected

/-- The AudioConfig dataclass of audio_transport.py; the dtype field is a
Python type object and is not modelled. -/
structure AudioConfig where
  sample_rate : Nat
  channels : Nat

/-- Connection state of LocalAudioTransport: the single _connected flag. -/
structure LocalState where
  connected : Bool

/-- Connection state of LiveKitAudioTransport: the _connected flag and
whether the published audio_source exists. -/
structure LiveKitState where
  connected : Bool
  audio_source : Option Unit

/-- Embeds LocalAudioTransport.record: it calls sounddevice without ever
consulting _connected; the device is modelled as a sample oracle and the
requested count is int(duration * sample_rate) with the duration given in
milliseconds. -/
def LocalAudioTransport.record (st : LocalState) (durationMs : Nat)
    (cfg : AudioConfig) (device : Nat → Int) : Except TransportError (List Int) :=
  Except.ok ((List.range (durationMs * cfg.sample_rate / 1000)).map device)

/-- Embeds LocalAudioTransport.record_with_vad: the loop of runVadLocal, run
without any connection check. -/
def LocalAudioTransport.record_with_vad (st : LocalState) (p : VadParams)
    (cb : Option (List Int → Bool)) (evs : List VadEvent) :
    Except TransportError (List Int × Bool) :=
  Except.ok (vadReturn (runVadLocal p cb evs initVadState).1)

/-- Embeds LocalAudioTransport.play: the samples are handed to sounddevice
without any connection check (the float32 rescaling for playback is a
dtype conversion and is not modelled). -/
def LocalAudioTransport.play (st : LocalState) (samples : List Int)
    (cfg : AudioConfig) : Except TransportError (List Int) :=
  Except.ok samples

/-- Embeds LocalAudioTransport.play_streaming: every chunk of the generator
is decoded and accumulated, then the whole concatenation is played once,
blocking; no connection check and no cancellation condition appear in the
source, so the cancelled argument (the external cancellation signal as
seen before each chunk) is never consulted. -/
def LocalAudioTransport.play_streaming (st : LocalState) (cancelled : Nat → Bool)
    (chunks : List (List Int)) (cfg : AudioConfig) : Except TransportError (List Int) :=
  Except.ok chunks.flatten

/-- Frame collection loop of LiveKitAudioTransport.record: frames are taken
from the inbound queue while the collected sample count is below the
requested count. -/
def collectFrames : Nat → List (List Int) → List (List Int)
  | _, [] => []
  | needed, f :: rest =>
      if needed = 0 then [] else f :: collectFrames (needed - f.length) rest

/-- Embeds LiveKitAudioTransport.record: raises when not connected,
otherwise collects whole frames until the requested sample count is
reached and truncates the concatenation to that count (an empty collection
returns an empty array). -/
def LiveKitAudioTransport.record (st : LiveKitState) (durationMs : Nat)
    (cfg : AudioConfig) (frames : List (List Int)) : Except TransportError (List Int) :=
  if st.connected then
    let needed := durationMs * cfg.sample_rate / 1000
    let collected := collectFrames needed frames
    Except.ok (if collected.isEmpty then [] else collected.flatten.take needed)
  else Except.error TransportError.notConnected

/-- Embeds LiveKitAudioTransport.record_with_vad: raises when not connected,
otherwise the loop of runVadLiveKit. -/
def LiveKitAudioTransport.record_with_vad (st : LiveKitState) (p : VadParams)
    (cb : Option (List Int → Bool)) (evs : List VadEvent) :
    Except TransportError (List Int × Bool) :=
  if st.connected then
    Except.ok (vadReturn (runVadLiveKit p cb evs initVadState).1)
  else Except.error TransportError.notConnected

/-- Embeds LiveKitAudioTransport.play: raises when not connected or when the
audio source is missing, otherwise delivers the whole buffer as a single
frame. -/
def LiveKitAudioTransport.play (st : LiveKitState) (samples : List Int)
    (cfg : AudioConfig) : Except TransportError (List (List Int)) :=
  if st.connected && st.audio_source.isSome then Except.ok [samples]
  else Except.error TransportError.notConnected

/-- Embeds LiveKitAudioTransport.play_streaming: raises when not connected
or when the audio source is missing, otherwise forwards every chunk of the
generator as a frame; the source consults no cancellation condition, so
the cancelled argument (the external cancellation signal as seen before
each chunk) is never read. -/
def LiveKitAudioTransport.play_streaming (st : LiveKitState) (cancelled : Nat → Bool)
    (chunks : List (List Int)) (cfg : AudioConfig) : Except TransportError (List (List Int)) :=
  if st.connected && st.audio_source.isSome then Except.ok chunks
  else Except.error TransportError.notConnected

/-! Helper lemmas about the chunked streaming pipeline. -/

/-- Every chunk produced by chunkPad has exactly chunk_size samples. -/
theorem chunkPad_length (l : List Int) : ∀ c ∈ chunkPad l, c.length = chunk_size := by
  induction l using chunkPad.induct with
  | case1 => intro c hc; simp [chunkPad] at hc
  | case2 x xs ih =>
      intro c hc
      rw [chunkPad] at hc
      rcases List.mem_cons.mp hc with hc | hc
      · subst hc
        simp only [List.length_append, List.length_take, List.length_replicate,
          List.length_cons]
        rcases Nat.le_total chunk_size (xs.length + 1) with h | h
        · rw [Nat.min_eq_left h]; omega
        · rw [Nat.min_eq_right h]; omega
      · exact ih c hc

/-- Concatenating the chunks of chunkPad yields the original buffer followed
by the zero padding of the final chunk. -/
theorem chunkPad_flatten (l : List Int) :
    ∃ k, (chunkPad l).flatten = l ++ List.replicate k (0 : Int) := by
  induction l using chunkPad.induct with
  | case1 => exact ⟨0, by simp [chunkPad]⟩
  | case2 x xs ih =>
      obtain ⟨k, hk⟩ := ih
      rw [chunkPad]
      by_cases h : (x :: xs).length ≤ chunk_size
      · refine ⟨chunk_size - (x :: xs).length + k, ?_⟩
        rw [List.flatten_cons, hk, List.drop_eq_nil_of_le h,
          List.take_of_length_le h, List.replicate_add]
        simp [List.append_assoc]
      · refine ⟨k, ?_⟩
        rw [List.flatten_cons, hk]
        have hz : chunk_size - (x :: xs).length = 0 := by omega
        rw [hz, List.replicate_zero, List.append_nil,
          ← List.append_assoc, List.take_append_drop]

/-- C9: every transmitted chunk of the send pipeline has exactly chunk_size
samples, the final short slice being zero padded to full length, and
concatenating the chunks in order then dropping the padding reproduces the
first L samples of the input exactly. -/
theorem chunking_reassembly (l : List Int) :
    (∀ c ∈ chunkPad l, c.length = chunk_size) ∧
    (∃ k, (chunkPad l).flatten = l ++ List.replicate k (0 : Int)) ∧
    ((chunkPad l).flatten).take l.length = l := by
  refine ⟨chunkPad_length l, chunkPad_flatten l, ?_⟩
  obtain ⟨k, hk⟩ := chunkPad_flatten l
  rw [hk, List.take_left]

/-- Witness for chunking_reassembly at the concrete buffer [1, 2, 3]. -/
theorem chunking_reassembly_witness :
    (∀ c ∈ chunkPad [1, 2, 3], c.length = chunk_size) ∧
    (∃ k, (chunkPad [1, 2, 3]).flatten = [1, 2, 3] ++ List.replicate k (0 : Int)) ∧
    ((chunkPad [1, 2, 3]).flatten).take ([1, 2, 3] : List Int).length = [1, 2, 3] :=
  chunking_reassembly [1, 2, 3]

/-! Helper lemmas about the interrupt controller. -/

/-- The _receive_audio body never changes is_speaking. -/
theorem receiveFrame_is_speaking (s : DuplexState) (f : List Int) :
    (receiveFrame s f).is_speaking = s.is_speaking := by
  unfold receiveFrame
  split
  · rfl
  · rfl

/-- was_interrupted is monotone under the _receive_audio body: it is set,
never cleared, during a speak call. -/
theorem receiveFrame_mono (s : DuplexState) (f : List Int)
    (h : s.was_interrupted = true) : (receiveFrame s f).was_interrupted = true := by
  unfold receiveFrame
  split
  · dsimp only
    split
    · rfl
    · exact h
  · exact h

/-- A send-loop iteration never changes the controller fields. -/
theorem duplexStep_send_dp (s : SendState) :
    (duplexStep DuplexEvent.send s).dp = s.dp := by
  simp only [duplexStep]
  repeat' split
  all_goals rfl

/-- No interleaving step changes is_speaking. -/
theorem duplexStep_speaking (e : DuplexEvent) (s : SendState) :
    (duplexStep e s).dp.is_speaking = s.dp.is_speaking := by
  cases e with
  | recv f => exact receiveFrame_is_speaking s.dp f
  | send => rw [duplexStep_send_dp]

/-- was_interrupted is monotone under any interleaving step. -/
theorem duplexStep_mono (e : DuplexEvent) (s : SendState)
    (h : s.dp.was_interrupted = true) : (duplexStep e s).dp.was_interrupted = true := by
  cases e with
  | recv f => exact receiveFrame_mono s.dp f h
  | send => rw [duplexStep_send_dp]; exact h

/-- Once was_interrupted holds, one more step delivers nothing: the send
loop checks the flag before slicing the next chunk. -/
theorem duplexStep_frozen (e : DuplexEvent) (s : SendState)
    (h : s.dp.was_interrupted = true) : (duplexStep e s).sent = s.sent := by
  cases e with
  | recv f => rfl
  | send =>
      simp only [duplexStep]
      split <;> rfl

/-- Unfolding a trace one step. -/
theorem runDuplex_cons (e : DuplexEvent) (evs : List DuplexEvent) (s : SendState) :
    runDuplex (e :: evs) s = runDuplex evs (duplexStep e s) := rfl

/-- Splitting a trace. -/
theorem runDuplex_append (a b : List DuplexEvent) (s : SendState) :
    runDuplex (a ++ b) s = runDuplex b (runDuplex a s) := by
  simp [runDuplex]

/-- is_speaking is invariant along any trace. -/
theorem runDuplex_speaking (evs : List DuplexEvent) : ∀ s : SendState,
    (runDuplex evs s).dp.is_speaking = s.dp.is_speaking := by
  induction evs with
  | nil => intro s; rfl
  | cons e evs ih =>
      intro s
      rw [runDuplex_cons, ih, duplexStep_speaking]

/-- was_interrupted is monotone along any trace. -/
theorem runDuplex_mono (evs : List DuplexEvent) : ∀ s : SendState,
    s.dp.was_interrupted = true → (runDuplex evs s).dp.was_interrupted = true := by
  induction evs with
  | nil => intro s h; exact h
  | cons e evs ih =>
      intro s h
      rw [runDuplex_cons]
      exact ih _ (duplexStep_mono e s h)

/-- Once was_interrupted holds, no later chunk is delivered, whatever the
rest of the trace does. -/
theorem runDuplex_frozen (evs : List DuplexEvent) : ∀ s : SendState,
    s.dp.was_interrupted = true → (runDuplex evs s).sent = s.sent := by
  induction evs with
  | nil => intro s _; rfl
  | cons e evs ih =>
      intro s h
      rw [runDuplex_cons, ih _ (duplexStep_mono e s h), duplexStep_frozen e s h]

/-- The crossing invariant of the scorer: whenever the consecutive speech
sample count has reached INTERRUPT_SAMPLES, was_interrupted has been set. -/
theorem duplexStep_countInv (e : DuplexEvent) (s : SendState)
    (h : INTERRUPT_SAMPLES ≤ s.dp.speech_detected_samples → s.dp.was_interrupted = true) :
    INTERRUPT_SAMPLES ≤ (duplexStep e s).dp.speech_detected_samples →
      (duplexStep e s).dp.was_interrupted = true := by
  cases e with
  | send => rw [duplexStep_send_dp]; exact h
  | recv f =>
      show INTERRUPT_SAMPLES ≤ (receiveFrame s.dp f).speech_detected_samples →
        (receiveFrame s.dp f).was_interrupted = true
      unfold receiveFrame
      split
      · dsimp only
        intro hc
        rw [if_pos hc]
      · dsimp only
        intro hc
        exact absurd hc (by simp [INTERRUPT_SAMPLES])

/-- The crossing invariant holds along any trace. -/
theorem runDuplex_countInv (evs : List DuplexEvent) : ∀ s : SendState,
    (INTERRUPT_SAMPLES ≤ s.dp.speech_detected_samples → s.dp.was_interrupted = true) →
    INTERRUPT_SAMPLES ≤ (runDuplex evs s).dp.speech_detected_samples →
      (runDuplex evs s).dp.was_interrupted = true := by
  induction evs with
  | nil => intro s h; exact h
  | cons e evs ih =>
      intro s h
      rw [runDuplex_cons]
      exact ih _ (duplexStep_countInv e s h)

/-- Over a stretch of the trace whose inbound frames are all above the
speech threshold, the consecutive sample count accumulates every inbound
sample (send iterations do not disturb it). -/
theorem runDuplex_good_count (mid : List DuplexEvent) : ∀ s : SendState,
    s.dp.is_speaking = true →
    (∀ e ∈ mid, e = DuplexEvent.send ∨ ∃ f, e = DuplexEvent.recv f ∧ frameAbove f = true) →
    (runDuplex mid s).dp.speech_detected_samples
      = s.dp.speech_detected_samples + recvSamples mid := by
  induction mid with
  | nil => intro s _ _; simp [recvSamples, runDuplex]
  | cons e rest ih =>
      intro s hspk hmid
      have hrest : ∀ x ∈ rest, x = DuplexEvent.send ∨
          ∃ f, x = DuplexEvent.recv f ∧ frameAbove f = true :=
        fun x hx => hmid x (List.mem_cons_of_mem _ hx)
      rcases hmid e (List.mem_cons_self _ _) with he | ⟨f, he, hf⟩
      · subst he
        rw [runDuplex_cons,
          ih _ (by rw [duplexStep_speaking]; exact hspk) hrest,
          duplexStep_send_dp]
        simp [recvSamples]
      · subst he
        have hcnt : (duplexStep (DuplexEvent.recv f) s).dp.speech_detected_samples
            = s.dp.speech_detected_samples + f.length := by
          show (receiveFrame s.dp f).speech_detected_samples = _
          unfold receiveFrame
          rw [hspk, hf]
          rfl
        rw [runDuplex_cons,
          ih _ (by rw [duplexStep_speaking]; exact hspk) hrest,
          hcnt]
        simp [recvSamples]
        omega

/-- While speaking, an above-threshold frame adds its sample count to the
consecutive speech counter. -/
theorem receiveFrame_above_count (s : DuplexState) (f : List Int)
    (hspk : s.is_speaking = true) (hf : frameAbove f = true) :
    (receiveFrame s f).speech_detected_samples
      = s.speech_detected_samples + f.length := by
  simp only [receiveFrame, hspk, hf, Bool.and_self, if_true]

/-- While speaking, an above-threshold frame that keeps the counter below
INTERRUPT_SAMPLES leaves was_interrupted unchanged. -/
theorem receiveFrame_above_flag (s : DuplexState) (f : List Int)
    (hspk : s.is_speaking = true) (hf : frameAbove f = true)
    (hlt : s.speech_detected_samples + f.length < INTERRUPT_SAMPLES) :
    (receiveFrame s f).was_interrupted = s.was_interrupted := by
  simp only [receiveFrame, hspk, hf, Bool.and_self, if_true]
  rw [if_neg (by omega)]

/-- A frame at or below the speech threshold resets the consecutive speech
counter and changes nothing else. -/
theorem receiveFrame_below (s : DuplexState) (f : List Int)
    (hf : frameAbove f = false) :
    receiveFrame s f = { s with speech_detected_samples := 0 } := by
  simp [receiveFrame, hf]

/-- C1: during an active speak call, an inbound stretch of the trace made of
send iterations and above-threshold frames whose samples total at least
INTERRUPT_SAMPLES sets was_interrupted; from any state where
was_interrupted holds no further chunk is delivered, in particular nothing
after that stretch is sent; and speak returns False (cut short). -/
theorem interrupt_cuts_playback (samples : List Int)
    (pre mid post : List DuplexEvent)
    (hmid : ∀ e ∈ mid, e = DuplexEvent.send ∨
      ∃ f, e = DuplexEvent.recv f ∧ frameAbove f = true)
    (htot : INTERRUPT_SAMPLES ≤ recvSamples mid) :
    (runDuplex mid (runDuplex pre (speakInit samples))).dp.was_interrupted = true ∧
    (∀ (evs : List DuplexEvent) (s : SendState),
      s.dp.was_interrupted = true → (runDuplex evs s).sent = s.sent) ∧
    (runDuplex (pre ++ mid ++ post) (speakInit samples)).sent
      = (runDuplex mid (runDuplex pre (speakInit samples))).sent ∧
    (DuplexVoice.speak 200 samples (pre ++ mid ++ post)).1 = false := by
  have hs1spk : (runDuplex pre (speakInit samples)).dp.is_speaking = true := by
    rw [runDuplex_speaking]; rfl
  have hinv0 : INTERRUPT_SAMPLES ≤ (speakInit samples).dp.speech_detected_samples →
      (speakInit samples).dp.was_interrupted = true := by
    intro h
    exact absurd h (by simp [speakInit, INTERRUPT_SAMPLES])
  have hinv1 := runDuplex_countInv pre (speakInit samples) hinv0
  have hcnt := runDuplex_good_count mid (runDuplex pre (speakInit samples)) hs1spk hmid
  have hflag : (runDuplex mid (runDuplex pre (speakInit samples))).dp.was_interrupted = true := by
    apply runDuplex_countInv mid _ hinv1
    rw [hcnt]
    omega
  refine ⟨hflag, fun evs s h => runDuplex_frozen evs s h, ?_, ?_⟩
  · rw [runDuplex_append, runDuplex_append]
    exact runDuplex_frozen post _ hflag
  · have hfin : (runDuplex (pre ++ mid ++ post) (speakInit samples)).dp.was_interrupted = true := by
      rw [runDuplex_append, runDuplex_append]
      exact runDuplex_mono post _ hflag
    have hs : DuplexVoice.speak 200 samples (pre ++ mid ++ post)
        = (!(runDuplex (pre ++ mid ++ post) (speakInit samples)).dp.was_interrupted,
          (runDuplex (pre ++ mid ++ post) (speakInit samples)).sent) := rfl
    rw [hs, hfin]
    rfl

/-- Witness for interrupt_cuts_playback: a single 4800-sample inbound frame
of constant magnitude 201 triggers the interrupt and the subsequent speak
call is cut short. -/
theorem interrupt_cuts_playback_witness :
    (∀ e ∈ [DuplexEvent.recv (List.replicate 4800 (201 : Int))],
      e = DuplexEvent.send ∨ ∃ f, e = DuplexEvent.recv f ∧ frameAbove f = true) ∧
    INTERRUPT_SAMPLES ≤ recvSamples [DuplexEvent.recv (List.replicate 4800 (201 : Int))] ∧
    (DuplexVoice.speak 200 []
      ([] ++ [DuplexEvent.recv (List.replicate 4800 (201 : Int))] ++ [DuplexEvent.send])).1
      = false := by
  have hf : frameAbove (List.replicate 4800 (201 : Int)) = true := by
    rw [frameAbove, decide_eq_true_eq]
    simp only [sumAbs, List.map_replicate, List.sum_replicate, List.length_replicate,
      smul_eq_mul, Int.natAbs_ofNat, SPEECH_THRESHOLD]
    norm_num
  have hmid : ∀ e ∈ [DuplexEvent.recv (List.replicate 4800 (201 : Int))],
      e = DuplexEvent.send ∨ ∃ f, e = DuplexEvent.recv f ∧ frameAbove f = true := by
    intro e he
    rw [List.mem_singleton] at he
    subst he
    exact Or.inr ⟨_, rfl, hf⟩
  have htot : INTERRUPT_SAMPLES ≤
      recvSamples [DuplexEvent.recv (List.replicate 4800 (201 : Int))] := by
    show INTERRUPT_SAMPLES ≤ (List.replicate 4800 (201 : Int)).length + recvSamples []
    rw [List.length_replicate, INTERRUPT_SAMPLES]
    exact Nat.le_add_right 4800 (recvSamples [])
  exact ⟨hmid, htot,
    (interrupt_cuts_playback [] [] [DuplexEvent.recv (List.replicate 4800 (201 : Int))]
      [DuplexEvent.send] hmid htot).2.2.2⟩

/-- The inbound frames of a concatenated trace. -/
theorem recvFrames_append (a b : List DuplexEvent) :
    recvFrames (a ++ b) = recvFrames a ++ recvFrames b := by
  induction a with
  | nil => rfl
  | cons e a ih => cases e <;> simp [recvFrames, ih]

/-- The leading above-threshold run grows by the head frame when the head is
above the threshold. -/
theorem leadAbove_cons_pos (f : List Int) (fs : List (List Int))
    (hf : frameAbove f = true) :
    leadAbove (f :: fs) = f.length + leadAbove fs := by
  simp [leadAbove, List.takeWhile_cons, hf]

/-- Auxiliary invariant for the no-trigger direction: along a trace none of
whose inbound above-threshold runs can drive the counter to
INTERRUPT_SAMPLES, was_interrupted stays clear. -/
theorem runDuplex_noTrigger (evs : List DuplexEvent) : ∀ s : SendState,
    s.dp.is_speaking = true →
    s.dp.was_interrupted = false →
    s.dp.speech_detected_samples + leadAbove (recvFrames evs) < INTERRUPT_SAMPLES →
    (∀ l m r, recvFrames evs = l ++ m ++ r → (∀ f ∈ m, frameAbove f = true) →
      (m.map List.length).sum < INTERRUPT_SAMPLES) →
    (runDuplex evs s).dp.was_interrupted = false := by
  induction evs with
  | nil => intro s _ hflag _ _; exact hflag
  | cons e rest ih =>
      intro s hspk hflag hlead hH
      cases e with
      | send =>
          rw [runDuplex_cons]
          refine ih _ ?_ ?_ ?_ ?_
          · rw [duplexStep_speaking]; exact hspk
          · rw [duplexStep_send_dp]; exact hflag
          · rw [duplexStep_send_dp]
            exact hlead
          · exact hH
      | recv f =>
          rw [runDuplex_cons]
          have hstep : (duplexStep (DuplexEvent.recv f) s).dp = receiveFrame s.dp f := rfl
          by_cases hf : frameAbove f = true
          · have hcons : leadAbove (recvFrames (DuplexEvent.recv f :: rest))
                = f.length + leadAbove (recvFrames rest) := by
              show leadAbove (f :: recvFrames rest) = _
              exact leadAbove_cons_pos f (recvFrames rest) hf
            rw [hcons] at hlead
            refine ih _ ?_ ?_ ?_ ?_
            · rw [duplexStep_speaking]; exact hspk
            · rw [hstep, receiveFrame_above_flag s.dp f hspk hf (by omega)]
              exact hflag
            · rw [hstep, receiveFrame_above_count s.dp f hspk hf]
              omega
            · intro l m r h hm
              refine hH (f :: l) m r ?_ hm
              show f :: recvFrames rest = (f :: l) ++ m ++ r
              rw [h]
              rfl
          · have hf0 : frameAbove f = false := by
              cases hx : frameAbove f
              · rfl
              · exact absurd hx hf
            refine ih _ ?_ ?_ ?_ ?_
            · rw [duplexStep_speaking]; exact hspk
            · rw [hstep, receiveFrame_below s.dp f hf0]
              exact hflag
            · rw [hstep, receiveFrame_below s.dp f hf0]
              have hrun : (((recvFrames rest).takeWhile frameAbove).map List.length).sum
                  < INTERRUPT_SAMPLES := by
                refine hH [f] ((recvFrames rest).takeWhile frameAbove)
                  ((recvFrames rest).dropWhile frameAbove) ?_ ?_
                · show f :: recvFrames rest = [f] ++ _ ++ _
                  rw [List.append_assoc, List.takeWhile_append_dropWhile]
                  rfl
                · intro g hg
                  exact List.mem_takeWhile_imp hg
              show 0 + leadAbove (recvFrames rest) < INTERRUPT_SAMPLES
              rw [leadAbove]
              omega
            · intro l m r h hm
              refine hH (f :: l) m r ?_ hm
              show f :: recvFrames rest = (f :: l) ++ m ++ r
              rw [h]
              rfl

/-- C8: during an active speak call whose inbound stream contains no run of
consecutive above-threshold frames totalling INTERRUPT_SAMPLES samples,
every below-threshold frame resets the consecutive counter,
was_interrupted stays false at every point of the trace, and speak returns
True (full utterance played). -/
theorem no_trigger_below_threshold (samples : List Int) (evs : List DuplexEvent)
    (hH : ∀ l m r, recvFrames evs = l ++ m ++ r →
      (∀ f ∈ m, frameAbove f = true) → (m.map List.length).sum < INTERRUPT_SAMPLES) :
    (∀ (s : DuplexState) (f : List Int), frameAbove f = false →
      (receiveFrame s f).speech_detected_samples = 0) ∧
    (∀ p q, evs = p ++ q → (runDuplex p (speakInit samples)).dp.was_interrupted = false) ∧
    (DuplexVoice.speak 200 samples evs).1 = true := by
  have hpref : ∀ p q, evs = p ++ q →
      (runDuplex p (speakInit samples)).dp.was_interrupted = false := by
    intro p q hpq
    have hHp : ∀ l m r, recvFrames p = l ++ m ++ r →
        (∀ f ∈ m, frameAbove f = true) → (m.map List.length).sum < INTERRUPT_SAMPLES := by
      intro l m r h hm
      refine hH l m (r ++ recvFrames q) ?_ hm
      rw [hpq, recvFrames_append, h]
      simp [List.append_assoc]
    have hlead : (speakInit samples).dp.speech_detected_samples
        + leadAbove (recvFrames p) < INTERRUPT_SAMPLES := by
      have := hHp [] ((recvFrames p).takeWhile frameAbove)
        ((recvFrames p).dropWhile frameAbove)
        (by rw [List.nil_append, List.takeWhile_append_dropWhile])
        (fun g hg => List.mem_takeWhile_imp hg)
      show 0 + leadAbove (recvFrames p) < INTERRUPT_SAMPLES
      rw [leadAbove]
      omega
    exact runDuplex_noTrigger p (speakInit samples) rfl rfl hlead hHp
  refine ⟨fun s f hf => by rw [receiveFrame_below s f hf], hpref, ?_⟩
  have hfin : (runDuplex evs (speakInit samples)).dp.was_interrupted = false :=
    hpref evs [] (by rw [List.append_nil])
  have hs : DuplexVoice.speak 200 samples evs
      = (!(runDuplex evs (speakInit samples)).dp.was_interrupted,
        (runDuplex evs (speakInit samples)).sent) := rfl
  rw [hs, hfin]
  rfl

/-- Witness for no_trigger_below_threshold: a trace with no inbound frame at
all; the speak call completes and returns True. -/
theorem no_trigger_below_threshold_witness :
    (∀ l m r, recvFrames [DuplexEvent.send] = l ++ m ++ r →
      (∀ f ∈ m, frameAbove f = true) → (m.map List.length).sum < INTERRUPT_SAMPLES) ∧
    (DuplexVoice.speak 200 [5] [DuplexEvent.send]).1 = true := by
  have hH : ∀ l m r, recvFrames [DuplexEvent.send] = l ++ m ++ r →
      (∀ f ∈ m, frameAbove f = true) → (m.map List.length).sum < INTERRUPT_SAMPLES := by
    intro l m r h _
    have hlen := congrArg List.length h
    simp only [recvFrames, List.length_nil, List.length_append] at hlen
    have hm : m = [] := List.length_eq_zero.mp (by omega)
    subst hm
    simp [INTERRUPT_SAMPLES]
  exact ⟨hH, (no_trigger_below_threshold [5] [DuplexEvent.send] hH).2.2⟩

/-! Helper lemmas about the VAD recording loops. -/

/-- Unfolding of one iteration of the local recording loop. -/
theorem runVadLocal_cons (p : VadParams) (cb : Option (List Int → Bool))
    (e : VadEvent) (rest : List VadEvent) (s : VadState) :
    runVadLocal p cb (e :: rest) s =
      if p.maxDurationMs ≤ e.time then (s, some (e.time, StopReason.maxDuration))
      else
        match e with
        | .timeout _ => runVadLocal p cb rest s
        | .chunk t c =>
            match processChunk p cb t c s with
            | .next s1 => runVadLocal p cb rest s1
            | .stop s1 => (s1, some (t, StopReason.silence)) := rfl

/-- Unfolding of one iteration of the LiveKit recording loop. -/
theorem runVadLiveKit_cons (p : VadParams) (cb : Option (List Int → Bool))
    (e : VadEvent) (rest : List VadEvent) (s : VadState) :
    runVadLiveKit p cb (e :: rest) s =
      if p.maxDurationMs ≤ e.time then (s, some (e.time, StopReason.maxDuration))
      else
        match e with
        | .timeout t =>
            match s.silence_start with
            | some t0 =>
                if p.silenceThresholdMs ≤ t - t0 then (s, some (t, StopReason.silence))
                else runVadLiveKit p cb rest s
            | none => runVadLiveKit p cb rest s
        | .chunk t c =>
            match processChunk p cb t c s with
            | .next s1 => runVadLiveKit p cb rest s1
            | .stop s1 => (s1, some (t, StopReason.silence)) := rfl

/-- Unfolding of a timeout iteration of the local recording loop. -/
theorem runVadLocal_timeout (p : VadParams) (cb : Option (List Int → Bool))
    (t : Nat) (rest : List VadEvent) (s : VadState) :
    runVadLocal p cb (VadEvent.timeout t :: rest) s =
      if p.maxDurationMs ≤ t then (s, some (t, StopReason.maxDuration))
      else runVadLocal p cb rest s := rfl

/-- Unfolding of a chunk iteration of the local recording loop. -/
theorem runVadLocal_chunk (p : VadParams) (cb : Option (List Int → Bool))
    (t : Nat) (c : List Int) (rest : List VadEvent) (s : VadState) :
    runVadLocal p cb (VadEvent.chunk t c :: rest) s =
      if p.maxDurationMs ≤ t then (s, some (t, StopReason.maxDuration))
      else
        match processChunk p cb t c s with
        | .next s1 => runVadLocal p cb rest s1
        | .stop s1 => (s1, some (t, StopReason.silence)) := rfl

/-- Unfolding of a timeout iteration of the LiveKit recording loop. -/
theorem runVadLiveKit_timeout (p : VadParams) (cb : Option (List Int → Bool))
    (t : Nat) (rest : List VadEvent) (s : VadState) :
    runVadLiveKit p cb (VadEvent.timeout t :: rest) s =
      if p.maxDurationMs ≤ t then (s, some (t, StopReason.maxDuration))
      else
        match s.silence_start with
        | some t0 =>
            if p.silenceThresholdMs ≤ t - t0 then (s, some (t, StopReason.silence))
            else runVadLiveKit p cb rest s
        | none => runVadLiveKit p cb rest s := rfl

/-- Unfolding of a chunk iteration of the LiveKit recording loop. -/
theorem runVadLiveKit_chunk (p : VadParams) (cb : Option (List Int → Bool))
    (t : Nat) (c : List Int) (rest : List VadEvent) (s : VadState) :
    runVadLiveKit p cb (VadEvent.chunk t c :: rest) s =
      if p.maxDurationMs ≤ t then (s, some (t, StopReason.maxDuration))
      else
        match processChunk p cb t c s with
        | .next s1 => runVadLiveKit p cb rest s1
        | .stop s1 => (s1, some (t, StopReason.silence)) := rfl

/-- C5 auxiliary, local variant: with nondecreasing iteration times, an
iteration at or past max_duration forces the loop to break no later than
that iteration. -/
theorem runVadLocal_ceiling (p : VadParams) (cb : Option (List Int → Bool))
    (evs : List VadEvent) : ∀ s : VadState,
    evs.Pairwise (fun a b => VadEvent.time a ≤ VadEvent.time b) →
    ∀ e ∈ evs, p.maxDurationMs ≤ e.time →
    ∃ t r, (runVadLocal p cb evs s).2 = some (t, r) ∧ t ≤ e.time := by
  induction evs with
  | nil => intro s _ e he; exact absurd he (List.not_mem_nil e)
  | cons e0 rest ih =>
      intro s hmono e he hceil
      have hrel := (List.pairwise_cons.mp hmono).1
      have hrest := (List.pairwise_cons.mp hmono).2
      by_cases h0 : p.maxDurationMs ≤ e0.time
      · cases e0 with
        | timeout t =>
            have h0t : p.maxDurationMs ≤ t := h0
            rw [runVadLocal_timeout, if_pos h0t]
            refine ⟨t, StopReason.maxDuration, rfl, ?_⟩
            rcases List.mem_cons.mp he with h | h
            · rw [h]; exact le_refl t
            · exact hrel e h
        | chunk t c =>
            have h0t : p.maxDurationMs ≤ t := h0
            rw [runVadLocal_chunk, if_pos h0t]
            refine ⟨t, StopReason.maxDuration, rfl, ?_⟩
            rcases List.mem_cons.mp he with h | h
            · rw [h]; exact le_refl t
            · exact hrel e h
      · have hmem : e ∈ rest := by
          rcases List.mem_cons.mp he with h | h
          · rw [h] at hceil; exact absurd hceil h0
          · exact h
        cases e0 with
        | timeout t =>
            have h0t : ¬ p.maxDurationMs ≤ t := h0
            rw [runVadLocal_timeout, if_neg h0t]
            exact ih s hrest e hmem hceil
        | chunk t c =>
            have h0t : ¬ p.maxDurationMs ≤ t := h0
            rw [runVadLocal_chunk, if_neg h0t]
            cases hpc : processChunk p cb t c s with
            | next s1 =>
                exact ih s1 hrest e hmem hceil
            | stop s1 =>
                exact ⟨t, StopReason.silence, rfl,
                  le_trans (le_of_not_le h0t) hceil⟩

/-- C5 auxiliary, LiveKit variant. -/
theorem runVadLiveKit_ceiling (p : VadParams) (cb : Option (List Int → Bool))
    (evs : List VadEvent) : ∀ s : VadState,
    evs.Pairwise (fun a b => VadEvent.time a ≤ VadEvent.time b) →
    ∀ e ∈ evs, p.maxDurationMs ≤ e.time →
    ∃ t r, (runVadLiveKit p cb evs s).2 = some (t, r) ∧ t ≤ e.time := by
  induction evs with
  | nil => intro s _ e he; exact absurd he (List.not_mem_nil e)
  | cons e0 rest ih =>
      intro s hmono e he hceil
      have hrel := (List.pairwise_cons.mp hmono).1
      have hrest := (List.pairwise_cons.mp hmono).2
      by_cases h0 : p.maxDurationMs ≤ e0.time
      · cases e0 with
        | timeout t =>
            have h0t : p.maxDurationMs ≤ t := h0
            rw [runVadLiveKit_timeout, if_pos h0t]
            refine ⟨t, StopReason.maxDuration, rfl, ?_⟩
            rcases List.mem_cons.mp he with h | h
            · rw [h]; exact le_refl t
            · exact hrel e h
        | chunk t c =>
            have h0t : p.maxDurationMs ≤ t := h0
            rw [runVadLiveKit_chunk, if_pos h0t]
            refine ⟨t, StopReason.maxDuration, rfl, ?_⟩
            rcases List.mem_cons.mp he with h | h
            · rw [h]; exact le_refl t
            · exact hrel e h
      · have hmem : e ∈ rest := by
          rcases List.mem_cons.mp he with h | h
          · rw [h] at hceil; exact absurd hceil h0
          · exact h
        cases e0 with
        | timeout t =>
            have h0t : ¬ p.maxDurationMs ≤ t := h0
            rw [runVadLiveKit_timeout, if_neg h0t]
            cases hss : s.silence_start with
            | none =>
                exact ih s hrest e hmem hceil
            | some t0 =>
                dsimp only
                by_cases hth : p.silenceThresholdMs ≤ t - t0
                · rw [if_pos hth]
                  exact ⟨t, StopReason.silence, rfl,
                    le_trans (le_of_not_le h0) hceil⟩
                · rw [if_neg hth]
                  exact ih s hrest e hmem hceil
        | chunk t c =>
            have h0t : ¬ p.maxDurationMs ≤ t := h0
            rw [runVadLiveKit_chunk, if_neg h0t]
            cases hpc : processChunk p cb t c s with
            | next s1 =>
                exact ih s1 hrest e hmem hceil
            | stop s1 =>
                exact ⟨t, StopReason.silence, rfl,
                  le_trans (le_of_not_le h0t) hceil⟩

/-- C5: for any parameters, any callback and any loop trace with
nondecreasing iteration times, as soon as an iteration occurs at elapsed
time max_duration or beyond, both record_with_vad variants have already
returned: the loop breaks at an elapsed time no later than that iteration,
whatever the VAD classifications did (the hard ceiling wins over the
silence logic). -/
theorem hard_ceiling_terminates (p : VadParams) (cb : Option (List Int → Bool))
    (evs : List VadEvent)
    (hmono : evs.Pairwise (fun a b => VadEvent.time a ≤ VadEvent.time b))
    (e : VadEvent) (he : e ∈ evs) (hceil : p.maxDurationMs ≤ e.time) :
    (∃ t r, (runVadLocal p cb evs initVadState).2 = some (t, r) ∧ t ≤ e.time) ∧
    (∃ t r, (runVadLiveKit p cb evs initVadState).2 = some (t, r) ∧ t ≤ e.time) :=
  ⟨runVadLocal_ceiling p cb evs initVadState hmono e he hceil,
   runVadLiveKit_ceiling p cb evs initVadState hmono e he hceil⟩

/-- Witness for hard_ceiling_terminates: with max_duration 1000 ms, an
iteration at 1000 ms stops both loops. -/
theorem hard_ceiling_terminates_witness :
    List.Pairwise (fun a b => VadEvent.time a ≤ VadEvent.time b) [VadEvent.timeout 1000] ∧
    VadEvent.timeout 1000 ∈ [VadEvent.timeout 1000] ∧
    (⟨1000, 0, 500⟩ : VadParams).maxDurationMs ≤ (VadEvent.timeout 1000).time ∧
    ((∃ t r, (runVadLocal ⟨1000, 0, 500⟩ none [VadEvent.timeout 1000] initVadState).2
        = some (t, r) ∧ t ≤ (VadEvent.timeout 1000).time) ∧
     (∃ t r, (runVadLiveKit ⟨1000, 0, 500⟩ none [VadEvent.timeout 1000] initVadState).2
        = some (t, r) ∧ t ≤ (VadEvent.timeout 1000).time)) := by
  refine ⟨by simp, by simp, by decide, ?_⟩
  exact hard_ceiling_terminates ⟨1000, 0, 500⟩ none [VadEvent.timeout 1000]
    (by simp) (VadEvent.timeout 1000) (by simp) (by decide)

/-- Silence branch of the shared chunk-processing body when no silence run
is active: the timer is armed at the current instant. -/
theorem processChunk_silence_arm (p : VadParams) (vad : List Int → Bool)
    (t : Nat) (c : List Int) (s : VadState)
    (hmin : p.minDurationMs ≤ t) (hv : vad c = false) (hss : s.silence_start = none) :
    processChunk p (some vad) t c s
      = ChunkOut.next { s with chunks := s.chunks ++ [c], silence_start := some t } := by
  simp [processChunk, if_pos hmin, hv, hss]

/-- Silence branch when an armed run has lasted at least
silence_threshold_ms: the loop stops with the accumulated buffer. -/
theorem processChunk_silence_stop (p : VadParams) (vad : List Int → Bool)
    (t t0 : Nat) (c : List Int) (s : VadState)
    (hmin : p.minDurationMs ≤ t) (hv : vad c = false) (hss : s.silence_start = some t0)
    (hth : p.silenceThresholdMs ≤ t - t0) :
    processChunk p (some vad) t c s
      = ChunkOut.stop { s with chunks := s.chunks ++ [c] } := by
  simp [processChunk, if_pos hmin, hv, hss, if_pos hth]

/-- Speech branch: speech_detected is set and the silence run is cleared. -/
theorem processChunk_speech (p : VadParams) (vad : List Int → Bool)
    (t : Nat) (c : List Int) (s : VadState)
    (hmin : p.minDurationMs ≤ t) (hv : vad c = true) :
    processChunk p (some vad) t c s
      = ChunkOut.next { s with chunks := s.chunks ++ [c]
                               , speech_detected := true, silence_start := none } := by
  simp [processChunk, if_pos hmin, hv]

/-- C6: in both record_with_vad variants, once elapsed has reached
min_duration and a callback is supplied, a chunk classified silence arms
the silence timer when none is active; a chunk classified silence once the
armed run has lasted silence_threshold_ms stops the loop and returns the
accumulated chunks; and a chunk classified speech clears the active
silence run and records speech. -/
theorem silence_run_logic (p : VadParams) (vad : List Int → Bool) (t : Nat)
    (c : List Int) (s : VadState) (rest : List VadEvent)
    (hmin : p.minDurationMs ≤ t) (hmax : t < p.maxDurationMs) :
    (vad c = false → s.silence_start = none →
      runVadLocal p (some vad) (VadEvent.chunk t c :: rest) s
        = runVadLocal p (some vad) rest
            { s with chunks := s.chunks ++ [c], silence_start := some t } ∧
      runVadLiveKit p (some vad) (VadEvent.chunk t c :: rest) s
        = runVadLiveKit p (some vad) rest
            { s with chunks := s.chunks ++ [c], silence_start := some t }) ∧
    (∀ t0, vad c = false → s.silence_start = some t0 → t0 ≤ t →
      p.silenceThresholdMs ≤ t - t0 →
      runVadLocal p (some vad) (VadEvent.chunk t c :: rest) s
        = ({ s with chunks := s.chunks ++ [c] }, some (t, StopReason.silence)) ∧
      runVadLiveKit p (some vad) (VadEvent.chunk t c :: rest) s
        = ({ s with chunks := s.chunks ++ [c] }, some (t, StopReason.silence))) ∧
    (vad c = true →
      runVadLocal p (some vad) (VadEvent.chunk t c :: rest) s
        = runVadLocal p (some vad) rest
            { s with chunks := s.chunks ++ [c]
                   , speech_detected := true, silence_start := none } ∧
      runVadLiveKit p (some vad) (VadEvent.chunk t c :: rest) s
        = runVadLiveKit p (some vad) rest
            { s with chunks := s.chunks ++ [c]
                   , speech_detected := true, silence_start := none }) := by
  have hmax' : ¬ p.maxDurationMs ≤ t := Nat.not_le.mpr hmax
  refine ⟨?_, ?_, ?_⟩
  · intro hv hss
    constructor
    · rw [runVadLocal_chunk, if_neg hmax', processChunk_silence_arm p vad t c s hmin hv hss]
    · rw [runVadLiveKit_chunk, if_neg hmax', processChunk_silence_arm p vad t c s hmin hv hss]
  · intro t0 hv hss _ hth
    constructor
    · rw [runVadLocal_chunk, if_neg hmax',
        processChunk_silence_stop p vad t t0 c s hmin hv hss hth]
    · rw [runVadLiveKit_chunk, if_neg hmax',
        processChunk_silence_stop p vad t t0 c s hmin hv hss hth]
  · intro hv
    constructor
    · rw [runVadLocal_chunk, if_neg hmax', processChunk_speech p vad t c s hmin hv]
    · rw [runVadLiveKit_chunk, if_neg hmax', processChunk_speech p vad t c s hmin hv]

/-- Witness for silence_run_logic: a speech chunk at 100 ms sets the flag
and clears the silence run in both variants. -/
theorem silence_run_logic_witness :
    (⟨1000, 0, 50⟩ : VadParams).minDurationMs ≤ 100 ∧
    100 < (⟨1000, 0, 50⟩ : VadParams).maxDurationMs ∧
    runVadLocal ⟨1000, 0, 50⟩ (some fun _ => true) [VadEvent.chunk 100 [3]] initVadState
      = runVadLocal ⟨1000, 0, 50⟩ (some fun _ => true) []
          { initVadState with chunks := initVadState.chunks ++ [[3]]
                            , speech_detected := true, silence_start := none } ∧
    runVadLiveKit ⟨1000, 0, 50⟩ (some fun _ => true) [VadEvent.chunk 100 [3]] initVadState
      = runVadLiveKit ⟨1000, 0, 50⟩ (some fun _ => true) []
          { initVadState with chunks := initVadState.chunks ++ [[3]]
                            , speech_detected := true, silence_start := none } := by
  have h := silence_run_logic ⟨1000, 0, 50⟩ (fun _ => true) 100 [3] initVadState []
    (by decide) (by decide)
  exact ⟨by decide, by decide, (h.2.2 rfl).1, (h.2.2 rfl).2⟩

/-- A local recording loop that never obtains a chunk leaves the state
untouched. -/
theorem runVadLocal_no_chunks (p : VadParams) (cb : Option (List Int → Bool))
    (evs : List VadEvent) : ∀ s : VadState,
    (∀ t c, VadEvent.chunk t c ∉ evs) → (runVadLocal p cb evs s).1 = s := by
  induction evs with
  | nil => intro s _; rfl
  | cons e rest ih =>
      intro s h
      cases e with
      | chunk t c => exact absurd (List.mem_cons_self _ _) (h t c)
      | timeout t =>
          rw [runVadLocal_timeout]
          by_cases h0 : p.maxDurationMs ≤ t
          · rw [if_pos h0]
          · rw [if_neg h0]
            exact ih s (fun t c hm => h t c (List.mem_cons_of_mem _ hm))

/-- A LiveKit recording loop that never obtains a chunk leaves the state
untouched. -/
theorem runVadLiveKit_no_chunks (p : VadParams) (cb : Option (List Int → Bool))
    (evs : List VadEvent) : ∀ s : VadState,
    (∀ t c, VadEvent.chunk t c ∉ evs) → (runVadLiveKit p cb evs s).1 = s := by
  induction evs with
  | nil => intro s _; rfl
  | cons e rest ih =>
      intro s h
      cases e with
      | chunk t c => exact absurd (List.mem_cons_self _ _) (h t c)
      | timeout t =>
          rw [runVadLiveKit_timeout]
          by_cases h0 : p.maxDurationMs ≤ t
          · rw [if_pos h0]
          · rw [if_neg h0]
            cases hss : s.silence_start with
            | none => exact ih s (fun t c hm => h t c (List.mem_cons_of_mem _ hm))
            | some t0 =>
                dsimp only
                by_cases hth : p.silenceThresholdMs ≤ t - t0
                · rw [if_pos hth]
                · rw [if_neg hth]
                  exact ih s (fun t c hm => h t c (List.mem_cons_of_mem _ hm))

/-- C10: a run of record_with_vad that receives no chunk at all returns an
empty sample array and speech_detected = false, in both variants, for any
parameters and whether or not a VAD callback was supplied. -/
theorem empty_recording_returns_false (p : VadParams)
    (cb : Option (List Int → Bool)) (evs : List VadEvent)
    (h : ∀ t c, VadEvent.chunk t c ∉ evs) :
    vadReturn (runVadLocal p cb evs initVadState).1 = ([], false) ∧
    vadReturn (runVadLiveKit p cb evs initVadState).1 = ([], false) ∧
    (∀ lst : LocalState,
      LocalAudioTransport.record_with_vad lst p cb evs = Except.ok ([], false)) ∧
    (∀ lk : LiveKitState, lk.connected = true →
      LiveKitAudioTransport.record_with_vad lk p cb evs = Except.ok ([], false)) := by
  have h1 : (runVadLocal p cb evs initVadState).1 = initVadState :=
    runVadLocal_no_chunks p cb evs initVadState h
  have h2 : (runVadLiveKit p cb evs initVadState).1 = initVadState :=
    runVadLiveKit_no_chunks p cb evs initVadState h
  refine ⟨by rw [h1]; rfl, by rw [h2]; rfl, ?_, ?_⟩
  · intro lst
    show Except.ok (vadReturn (runVadLocal p cb evs initVadState).1) = _
    rw [h1]
    rfl
  · intro lk hconn
    show (if lk.connected then
        Except.ok (vadReturn (runVadLiveKit p cb evs initVadState).1)
      else Except.error TransportError.notConnected) = _
    rw [hconn, if_pos rfl, h2]
    rfl

/-- Witness for empty_recording_returns_false: a trace of two empty polls. -/
theorem empty_recording_returns_false_witness :
    (∀ t c, VadEvent.chunk t c ∉ [VadEvent.timeout 100, VadEvent.timeout 200]) ∧
    vadReturn (runVadLocal ⟨1000, 0, 500⟩ none
      [VadEvent.timeout 100, VadEvent.timeout 200] initVadState).1 = ([], false) ∧
    vadReturn (runVadLiveKit ⟨1000, 0, 500⟩ none
      [VadEvent.timeout 100, VadEvent.timeout 200] initVadState).1 = ([], false) := by
  have h : ∀ t c, VadEvent.chunk t c ∉ [VadEvent.timeout 100, VadEvent.timeout 200] := by
    intro t c hm
    simp at hm
  have := empty_recording_returns_false ⟨1000, 0, 500⟩ none
    [VadEvent.timeout 100, VadEvent.timeout 200] h
  exact ⟨h, this.1, this.2.1⟩

/-- Silence branch when an armed run is still below silence_threshold_ms:
only the buffer grows. -/
theorem processChunk_silence_wait (p : VadParams) (vad : List Int → Bool)
    (t t0 : Nat) (c : List Int) (s : VadState)
    (hmin : p.minDurationMs ≤ t) (hv : vad c = false) (hss : s.silence_start = some t0)
    (hth : ¬ p.silenceThresholdMs ≤ t - t0) :
    processChunk p (some vad) t c s
      = ChunkOut.next { s with chunks := s.chunks ++ [c] } := by
  simp [processChunk, if_pos hmin, hv, hss, if_neg hth]

/-- A chunk that arrives during the grace period is counted as speech
unconditionally: the callback is not consulted. -/
theorem processChunk_grace (p : VadParams) (cb : Option (List Int → Bool))
    (t : Nat) (c : List Int) (s : VadState) (ht : t < p.minDurationMs) :
    processChunk p cb t c s
      = ChunkOut.next { s with chunks := s.chunks ++ [c], speech_detected := true } := by
  cases cb with
  | none => rfl
  | some vad => simp [processChunk, if_neg (Nat.not_le.mpr ht)]

/-- speech_detected stays false along a local recording loop all of whose
chunks arrive after min_duration and are classified silence. -/
theorem runVadLocal_silence_flag (p : VadParams) (vad : List Int → Bool)
    (evs : List VadEvent) : ∀ s : VadState, s.speech_detected = false →
    (∀ t c, VadEvent.chunk t c ∈ evs → p.minDurationMs ≤ t ∧ vad c = false) →
    ((runVadLocal p (some vad) evs s).1).speech_detected = false := by
  induction evs with
  | nil => intro s hflag _; exact hflag
  | cons e rest ih =>
      intro s hflag hc
      have hcrest : ∀ t c, VadEvent.chunk t c ∈ rest →
          p.minDurationMs ≤ t ∧ vad c = false :=
        fun t c hm => hc t c (List.mem_cons_of_mem _ hm)
      cases e with
      | timeout t =>
          rw [runVadLocal_timeout]
          by_cases h0 : p.maxDurationMs ≤ t
          · rw [if_pos h0]; exact hflag
          · rw [if_neg h0]
            exact ih s hflag hcrest
      | chunk t c =>
          obtain ⟨hmin, hv⟩ := hc t c (List.mem_cons_self _ _)
          rw [runVadLocal_chunk]
          by_cases h0 : p.maxDurationMs ≤ t
          · rw [if_pos h0]; exact hflag
          · rw [if_neg h0]
            cases hss : s.silence_start with
            | none =>
                rw [processChunk_silence_arm p vad t c s hmin hv hss]
                exact ih _ hflag hcrest
            | some t0 =>
                by_cases hth : p.silenceThresholdMs ≤ t - t0
                · rw [processChunk_silence_stop p vad t t0 c s hmin hv hss hth]
                  exact hflag
                · rw [processChunk_silence_wait p vad t t0 c s hmin hv hss hth]
                  exact ih _ hflag hcrest

/-- speech_detected stays false along a LiveKit recording loop all of whose
chunks arrive after min_duration and are classified silence. -/
theorem runVadLiveKit_silence_flag (p : VadParams) (vad : List Int → Bool)
    (evs : List VadEvent) : ∀ s : VadState, s.speech_detected = false →
    (∀ t c, VadEvent.chunk t c ∈ evs → p.minDurationMs ≤ t ∧ vad c = false) →
    ((runVadLiveKit p (some vad) evs s).1).speech_detected = false := by
  induction evs with
  | nil => intro s hflag _; exact hflag
  | cons e rest ih =>
      intro s hflag hc
      have hcrest : ∀ t c, VadEvent.chunk t c ∈ rest →
          p.minDurationMs ≤ t ∧ vad c = false :=
        fun t c hm => hc t c (List.mem_cons_of_mem _ hm)
      cases e with
      | timeout t =>
          rw [runVadLiveKit_timeout]
          by_cases h0 : p.maxDurationMs ≤ t
          · rw [if_pos h0]; exact hflag
          · rw [if_neg h0]
            cases hss : s.silence_start with
            | none => exact ih s hflag hcrest
            | some t0 =>
                dsimp only
                by_cases hth : p.silenceThresholdMs ≤ t - t0
                · rw [if_pos hth]; exact hflag
                · rw [if_neg hth]
                  exact ih s hflag hcrest
      | chunk t c =>
          obtain ⟨hmin, hv⟩ := hc t c (List.mem_cons_self _ _)
          rw [runVadLiveKit_chunk]
          by_cases h0 : p.maxDurationMs ≤ t
          · rw [if_pos h0]; exact hflag
          · rw [if_neg h0]
            cases hss : s.silence_start with
            | none =>
                rw [processChunk_silence_arm p vad t c s hmin hv hss]
                exact ih _ hflag hcrest
            | some t0 =>
                by_cases hth : p.silenceThresholdMs ≤ t - t0
                · rw [processChunk_silence_stop p vad t t0 c s hmin hv hss hth]
                  exact hflag
                · rw [processChunk_silence_wait p vad t t0 c s hmin hv hss hth]
                  exact ih _ hflag hcrest

/-- The returned flag of record_with_vad is false whenever the loop flag is
false (an empty buffer also returns false). -/
theorem vadReturn_flag (s : VadState) (h : s.speech_detected = false) :
    (vadReturn s).2 = false := by
  rw [vadReturn]
  split
  · rfl
  · exact h

/-- C2 counterexample: a run of the local record_with_vad with a callback
that classifies every chunk as silence, in which one chunk arrives during
the grace period (elapsed 0 ms with min_duration 1000 ms) and the silence
threshold is then reached (the loop stops for silence at 2000 ms), yet the
returned speech_detected flag is true, because grace-period chunks set the
flag unconditionally.  The claim as stated says it should be false. -/
theorem grace_period_speech_counterexample :
    (runVadLocal ⟨10000, 1000, 1000⟩ (some fun _ => false)
      [VadEvent.chunk 0 [7], VadEvent.chunk 1000 [8], VadEvent.chunk 2000 [9]]
      initVadState).2 = some (2000, StopReason.silence) ∧
    (vadReturn (runVadLocal ⟨10000, 1000, 1000⟩ (some fun _ => false)
      [VadEvent.chunk 0 [7], VadEvent.chunk 1000 [8], VadEvent.chunk 2000 [9]]
      initVadState).1).2 = true := by
  constructor
  · rfl
  · rfl

/-- C2 amended: with a VAD callback supplied, if every chunk arrives at
elapsed at least min_duration (none during the grace period) and every
chunk is classified silence, the returned speech_detected flag is false in
both variants; a chunk arriving during the grace period is counted as
speech unconditionally, without consulting the callback. -/
theorem all_silence_after_grace_returns_false (p : VadParams)
    (vad : List Int → Bool) (evs : List VadEvent)
    (hc : ∀ t c, VadEvent.chunk t c ∈ evs → p.minDurationMs ≤ t ∧ vad c = false) :
    (vadReturn (runVadLocal p (some vad) evs initVadState).1).2 = false ∧
    (vadReturn (runVadLiveKit p (some vad) evs initVadState).1).2 = false ∧
    (∀ t c s, t < p.minDurationMs →
      processChunk p (some vad) t c s
        = ChunkOut.next { s with chunks := s.chunks ++ [c], speech_detected := true }) := by
  refine ⟨?_, ?_, fun t c s ht => processChunk_grace p (some vad) t c s ht⟩
  · exact vadReturn_flag _ (runVadLocal_silence_flag p vad evs initVadState rfl hc)
  · exact vadReturn_flag _ (runVadLiveKit_silence_flag p vad evs initVadState rfl hc)

/-- Witness for all_silence_after_grace_returns_false: min_duration 0, one
silent chunk at 0 ms; both variants return the flag false. -/
theorem all_silence_after_grace_witness :
    (∀ t c, VadEvent.chunk t c ∈ [VadEvent.chunk 0 [1]] →
      (⟨1000, 0, 500⟩ : VadParams).minDurationMs ≤ t ∧ (fun _ => false : List Int → Bool) c = false) ∧
    (vadReturn (runVadLocal ⟨1000, 0, 500⟩ (some fun _ => false)
      [VadEvent.chunk 0 [1]] initVadState).1).2 = false ∧
    (vadReturn (runVadLiveKit ⟨1000, 0, 500⟩ (some fun _ => false)
      [VadEvent.chunk 0 [1]] initVadState).1).2 = false := by
  have hc : ∀ t c, VadEvent.chunk t c ∈ [VadEvent.chunk 0 [1]] →
      (⟨1000, 0, 500⟩ : VadParams).minDurationMs ≤ t ∧
        (fun _ => false : List Int → Bool) c = false := by
    intro t c hm
    rw [List.mem_singleton] at hm
    cases hm
    exact ⟨Nat.le_refl 0, rfl⟩
  have h := all_silence_after_grace_returns_false ⟨1000, 0, 500⟩ (fun _ => false)
    [VadEvent.chunk 0 [1]] hc
  exact ⟨hc, h.1, h.2.1⟩

/-- C3 counterexample: the Local transport performs record while
is_connected is false — it returns the recorded device samples instead of
signalling a not-connected error.  The claim as stated says every variant
must raise. -/
theorem local_record_disconnected_counterexample :
    LocalAudioTransport.record ⟨false⟩ 1 ⟨1000, 1⟩ (fun _ => (0 : Int))
      = Except.ok [0] := rfl

/-- C3 amended: only the Remote (LiveKit) variant checks the connection:
its record, record_with_vad, play and play_streaming all raise the
not-connected error when is_connected is false, while the Local variant
performs every one of the four operations without any connection check. -/
theorem not_connected_only_livekit (lk : LiveKitState) (hlk : lk.connected = false)
    (lst : LocalState) (durationMs : Nat) (cfg : AudioConfig)
    (device : Nat → Int) (frames : List (List Int)) (p : VadParams)
    (cb : Option (List Int → Bool)) (evs : List VadEvent) (samples : List Int)
    (cancelled : Nat → Bool) (chunks : List (List Int)) :
    LiveKitAudioTransport.record lk durationMs cfg frames
      = Except.error TransportError.notConnected ∧
    LiveKitAudioTransport.record_with_vad lk p cb evs
      = Except.error TransportError.notConnected ∧
    LiveKitAudioTransport.play lk samples cfg
      = Except.error TransportError.notConnected ∧
    LiveKitAudioTransport.play_streaming lk cancelled chunks cfg
      = Except.error TransportError.notConnected ∧
    (∃ out, LocalAudioTransport.record lst durationMs cfg device = Except.ok out) ∧
    (∃ out, LocalAudioTransport.record_with_vad lst p cb evs = Except.ok out) ∧
    (∃ out, LocalAudioTransport.play lst samples cfg = Except.ok out) ∧
    (∃ out, LocalAudioTransport.play_streaming lst cancelled chunks cfg
      = Except.ok out) := by
  refine ⟨?_, ?_, ?_, ?_, ⟨_, rfl⟩, ⟨_, rfl⟩, ⟨_, rfl⟩, ⟨_, rfl⟩⟩
  · simp [LiveKitAudioTransport.record, hlk]
  · simp [LiveKitAudioTransport.record_with_vad, hlk]
  · simp [LiveKitAudioTransport.play, hlk]
  · simp [LiveKitAudioTransport.play_streaming, hlk]

/-- Witness for not_connected_only_livekit at a concrete disconnected state
of each transport. -/
theorem not_connected_only_livekit_witness :
    ((⟨false, none⟩ : LiveKitState).connected = false) ∧
    LiveKitAudioTransport.record ⟨false, none⟩ 1 ⟨1000, 1⟩ []
      = Except.error TransportError.notConnected ∧
    LiveKitAudioTransport.record_with_vad ⟨false, none⟩ ⟨1000, 0, 500⟩ none []
      = Except.error TransportError.notConnected ∧
    LiveKitAudioTransport.play ⟨false, none⟩ [] ⟨1000, 1⟩
      = Except.error TransportError.notConnected ∧
    LiveKitAudioTransport.play_streaming ⟨false, none⟩ (fun _ => false) [] ⟨1000, 1⟩
      = Except.error TransportError.notConnected ∧
    (∃ out, LocalAudioTransport.record ⟨false⟩ 1 ⟨1000, 1⟩ (fun _ => (0 : Int))
      = Except.ok out) ∧
    (∃ out, LocalAudioTransport.record_with_vad ⟨false⟩ ⟨1000, 0, 500⟩ none []
      = Except.ok out) ∧
    (∃ out, LocalAudioTransport.play ⟨false⟩ [] ⟨1000, 1⟩ = Except.ok out) ∧
    (∃ out, LocalAudioTransport.play_streaming ⟨false⟩ (fun _ => false) [] ⟨1000, 1⟩
      = Except.ok out) := by
  have h := not_connected_only_livekit ⟨false, none⟩ rfl ⟨false⟩ 1 ⟨1000, 1⟩
    (fun _ => (0 : Int)) [] ⟨1000, 0, 500⟩ none [] [] (fun _ => false) []
  exact ⟨rfl, h.1, h.2.1, h.2.2.1, h.2.2.2.1, h.2.2.2.2.1, h.2.2.2.2.2.1,
    h.2.2.2.2.2.2.1, h.2.2.2.2.2.2.2⟩

/-- C4 counterexample: with the external cancellation signal set before
every chunk, both play_streaming implementations still deliver every chunk
to the sink — neither consults any cancellation condition.  The claim as
stated says the chunks must not be delivered. -/
theorem play_streaming_cancel_counterexample :
    LiveKitAudioTransport.play_streaming ⟨true, some ()⟩ (fun _ => true)
      [[1], [2]] ⟨24000, 1⟩ = Except.ok [[1], [2]] ∧
    LocalAudioTransport.play_streaming ⟨true⟩ (fun _ => true)
      [[1], [2]] ⟨24000, 1⟩ = Except.ok [1, 2] := by
  constructor
  · rfl
  · rfl

/-- C4 amended: neither transport's play_streaming checks a cancellation
condition between chunk sends — the Remote variant forwards every chunk
and the Local variant accumulates the whole stream and plays it as one
blocking buffer, both regardless of any external cancellation signal.  The
between-chunk cancellation check exists only in DuplexVoice._send_audio,
which reads was_interrupted before each chunk: once that flag holds, no
further chunk is delivered. -/
theorem play_streaming_no_cancellation_check (st : LiveKitState)
    (h1 : st.connected = true) (h2 : st.audio_source = some ())
    (lst : LocalState) (cancelled : Nat → Bool) (chunks : List (List Int))
    (cfg : AudioConfig) (evs : List DuplexEvent) (s : SendState)
    (hint : s.dp.was_interrupted = true) :
    LiveKitAudioTransport.play_streaming st cancelled chunks cfg
      = Except.ok chunks ∧
    LocalAudioTransport.play_streaming lst cancelled chunks cfg
      = Except.ok chunks.flatten ∧
    (runDuplex evs s).sent = s.sent := by
  refine ⟨?_, rfl, runDuplex_frozen evs s hint⟩
  simp [LiveKitAudioTransport.play_streaming, h1, h2]

/-- Witness for play_streaming_no_cancellation_check: a connected remote
state, an always-set cancellation signal, and an interrupted sender state.
-/
theorem play_streaming_no_cancellation_witness :
    ((⟨true, some ()⟩ : LiveKitState).connected = true) ∧
    ((⟨true, some ()⟩ : LiveKitState).audio_source = some ()) ∧
    ((⟨⟨true, true, 0⟩, [[9]], [], false⟩ : SendState).dp.was_interrupted = true) ∧
    (LiveKitAudioTransport.play_streaming ⟨true, some ()⟩ (fun _ => true)
      [[1]] ⟨24000, 1⟩ = Except.ok [[1]] ∧
    LocalAudioTransport.play_streaming ⟨true⟩ (fun _ => true)
      [[1]] ⟨24000, 1⟩ = Except.ok ([[1]] : List (List Int)).flatten ∧
    (runDuplex [DuplexEvent.send] ⟨⟨true, true, 0⟩, [[9]], [], false⟩).sent
      = (⟨⟨true, true, 0⟩, [[9]], [], false⟩ : SendState).sent) := by
  refine ⟨rfl, rfl, rfl, ?_⟩
  exact play_streaming_no_cancellation_check ⟨true, some ()⟩ rfl rfl ⟨true⟩
    (fun _ => true) [[1]] ⟨24000, 1⟩ [DuplexEvent.send]
    ⟨⟨true, true, 0⟩, [[9]], [], false⟩ rfl

/-- C7 counterexample: a non-200 TTS status makes DuplexVoice.speak return
True — the completed flag, the same value as a fully played utterance —
instead of propagating a hard error to its caller. -/
theorem tts_error_returns_completed_counterexample :
    DuplexVoice.speak 500 [1, 2, 3] [] = (true, []) := rfl

/-- C7 amended: when the TTS service answers with a non-200 status the
current utterance is abandoned — no chunk is delivered by either speak —
but the failure does not propagate: DuplexVoice.speak returns True, the
completed flag of a successful utterance, and speak in voice_loop.py
returns with nothing sent and no error value, the failure being only
logged. -/
theorem tts_error_logged_not_propagated (status : Nat) (h : status ≠ 200)
    (samples : List Int) (evs : List DuplexEvent) (connected : Bool) :
    DuplexVoice.speak status samples evs = (true, []) ∧
    voiceLoopSpeakSent connected status samples = [] := by
  constructor
  · rw [DuplexVoice.speak, if_neg h]
  · cases connected
    · rfl
    · show (if status ≠ 200 then ([] : List (List Int)) else chunkPad samples) = []
      rw [if_pos h]

/-- Witness for tts_error_logged_not_propagated at status 500. -/
theorem tts_error_logged_witness :
    (500 : Nat) ≠ 200 ∧
    DuplexVoice.speak 500 [1, 2] [DuplexEvent.send] = (true, []) ∧
    voiceLoopSpeakSent true 500 [1, 2] = [] := by
  have h : (500 : Nat) ≠ 200 := by decide
  have hh := tts_error_logged_not_propagated 500 h [1, 2] [DuplexEvent.send] true
  exact ⟨h, hh.1, hh.2⟩
